import Mathlib

/-!
Verification of the per-session state machine and sliding audio buffer of the
Quran recitation tracker backend (`backend/session_manager.py`,
`backend/app.py`, `backend/asr_backend.py`).

Modelling conventions:
* `bytes` values are `List Nat` (one entry per byte).
* Python `float` durations and confidences are `ℚ`: the code only adds,
  subtracts and compares them, and every claim under study is about that
  exact arithmetic, not about rounding.
* Python `dict` session maps are association lists `List (String × SessionState)`.
* External collaborators (ffmpeg decoder, ASR transcriber, the normalizer and
  the alignment engine from `quran_alignment`, which is not part of the
  backend sources) are oracle parameters of the chunk pipeline, exactly as the
  spec treats them.
-/

/-- Embeds the `SessionState` dataclass of `backend/session_manager.py`
(lines 11-23), with its Python field defaults. -/
structure SessionState where
  global_word_pos : Int := 0
  last_confidence : ℚ := 0
  mode : String := "tracking"
  consecutive_low_confidence : Nat := 0
  webm_header : Option (List Nat) := none
  audio_buffer_wav : List (List Nat) := []
  audio_buffer_duration : ℚ := 0
  max_buffer_duration : ℚ := 8
  deriving DecidableEq, Repr

/-- Embeds the `SessionManager` constructor state (`__init__`, lines 29-33). -/
structure SessionManager where
  sessions : List (String × SessionState) := []
  confidence_threshold : ℚ := 2/5
  max_low_confidence : Nat := 3
  audio_buffer_max_duration : ℚ := 8
  deriving DecidableEq, Repr

/-- Association-list lookup standing for the Python `dict` read
`self.sessions[sid]` / `sid in self.sessions`. -/
def lookupSession : List (String × SessionState) → String → Option SessionState
  | [], _ => none
  | (k, v) :: rest, sid => if k = sid then some v else lookupSession rest sid

/-- Association-list update standing for `self.sessions[sid] = state`. -/
def storeSession : List (String × SessionState) → String → SessionState → List (String × SessionState)
  | [], sid, st => [(sid, st)]
  | (k, v) :: rest, sid, st =>
      if k = sid then (k, st) :: rest else (k, v) :: storeSession rest sid st

/-- `SessionManager.create_session` (lines 35-40): a fresh `SessionState()`
whose `max_buffer_duration` is overwritten with the manager's configured
maximum, stored under `sid` and returned. -/
def SessionManager.create_session (m : SessionManager) (sid : String) :
    SessionState × SessionManager :=
  let st : SessionState := { max_buffer_duration := m.audio_buffer_max_duration }
  (st, { m with sessions := storeSession m.sessions sid st })

/-- `SessionManager.get_session` (lines 42-46): return the stored state,
creating a fresh one when `sid` is absent. -/
def SessionManager.get_session (m : SessionManager) (sid : String) :
    SessionState × SessionManager :=
  match lookupSession m.sessions sid with
  | none => m.create_session sid
  | some st => (st, m)

/-- `SessionManager.update_from_alignment` (lines 53-73), expressed on the
session's state with the manager's two configuration knobs as parameters:
position moves to the max, confidence is recorded, the low-confidence streak
increments below the threshold and resets at or above it, and the mode is
recomputed from the streak on every update. -/
def SessionState.update_from_alignment (τ : ℚ) (maxLow : Nat) (st : SessionState)
    (confidence : ℚ) (furthest_global_index : Int) : SessionState :=
  let pos := max st.global_word_pos furthest_global_index
  let streak := if confidence < τ then st.consecutive_low_confidence + 1 else 0
  let newMode := if streak ≥ maxLow then "search" else "tracking"
  { st with
    global_word_pos := pos
    last_confidence := confidence
    consecutive_low_confidence := streak
    mode := newMode }

/-- The `while` loop of `add_audio_to_buffer` (lines 91-97): while the
recorded duration exceeds the maximum and more than one chunk is stored, pop
the front chunk and subtract the hard-coded estimate of 2.0 seconds. -/
def trimBuffer (maxDur : ℚ) : List (List Nat) → ℚ → List (List Nat) × ℚ
  | [], d => ([], d)
  | [c], d => ([c], d)
  | c :: c2 :: rest, d =>
      if maxDur < d then trimBuffer maxDur (c2 :: rest) (d - 2)
      else (c :: c2 :: rest, d)

/-- `SessionManager.add_audio_to_buffer` (lines 75-97) on the session's
state: append the chunk, add its reported duration, then trim. -/
def SessionState.add_audio_to_buffer (st : SessionState) (wav_bytes : List Nat)
    (duration : ℚ) : SessionState :=
  let buf := st.audio_buffer_wav ++ [wav_bytes]
  let d := st.audio_buffer_duration + duration
  let trimmed := trimBuffer st.max_buffer_duration buf d
  { st with audio_buffer_wav := trimmed.1, audio_buffer_duration := trimmed.2 }

/-- The per-chunk contribution in `get_cumulative_audio` (lines 125-127):
chunks after the first contribute their bytes past the 44-byte WAV header,
and only when they are strictly longer than 44 bytes. -/
def stripWavHeader (chunk : List Nat) : List Nat :=
  if 44 < chunk.length then chunk.drop 44 else []

/-- `SessionManager.get_cumulative_audio` (lines 99-129) on the session's
state: empty ring gives `b''`, a single chunk is returned as-is, otherwise
the first chunk in full followed by the stripped tail chunks. -/
def SessionState.get_cumulative_audio (st : SessionState) : List Nat :=
  match st.audio_buffer_wav with
  | [] => []
  | [c] => c
  | c :: rest => c ++ (rest.map stripWavHeader).foldr (· ++ ·) []

/-- `SessionManager.clear_audio_buffer` (lines 131-135). -/
def SessionState.clear_audio_buffer (st : SessionState) : SessionState :=
  { st with audio_buffer_wav := [], audio_buffer_duration := 0 }

/-- `SessionManager.reset_session_progress` (lines 137-146). -/
def SessionState.reset_session_progress (st : SessionState) : SessionState :=
  let st1 : SessionState :=
    { st with
      global_word_pos := 0
      last_confidence := 0
      mode := "tracking"
      consecutive_low_confidence := 0
      webm_header := none }
  st1.clear_audio_buffer

/-- Folding a sequence of `update_from_alignment` calls over one session. -/
def applyUpdates (τ : ℚ) (maxLow : Nat) (st : SessionState)
    (updates : List (ℚ × Int)) : SessionState :=
  updates.foldl (fun s u => s.update_from_alignment τ maxLow u.1 u.2) st

/-- Folding a sequence of `add_audio_to_buffer` calls over one session. -/
def applyAdds (st : SessionState) (calls : List (List Nat × ℚ)) : SessionState :=
  calls.foldl (fun s c => s.add_audio_to_buffer c.1 c.2) st

example : (SessionState.add_audio_to_buffer
    (SessionState.add_audio_to_buffer {} [0] 5) [1] 5).audio_buffer_duration = 8 := by
  norm_num [SessionState.add_audio_to_buffer, trimBuffer]

example : (SessionState.add_audio_to_buffer
    (SessionState.add_audio_to_buffer {} [0] 5) [1] 5).audio_buffer_wav = [[1]] := by
  norm_num [SessionState.add_audio_to_buffer, trimBuffer]

/-- Spec-described audio ring (§4.7 of the spec, for comparison with the
source's `add_audio_to_buffer`): the ring stores `(wav, duration)` pairs and
eviction subtracts each evicted chunk's own duration. -/
def trimBufferSpec (maxDur : ℚ) : List (List Nat × ℚ) → ℚ → List (List Nat × ℚ) × ℚ
  | [], d => ([], d)
  | [c], d => ([c], d)
  | c :: c2 :: rest, d =>
      if maxDur < d then trimBufferSpec maxDur (c2 :: rest) (d - c.2)
      else (c :: c2 :: rest, d)

/-- Spec-described append (§4.7): append the pair, add the duration, trim
subtracting evicted chunks' own durations. -/
def addAudioSpec (maxDur : ℚ) (ring : List (List Nat × ℚ) × ℚ)
    (wav_bytes : List Nat) (duration : ℚ) : List (List Nat × ℚ) × ℚ :=
  trimBufferSpec maxDur (ring.1 ++ [(wav_bytes, duration)]) (ring.2 + duration)

/-- `_get_asr_backend` of `backend/asr_backend.py` (lines 21-31) as a function
of the configured backend string (environment override or `config.ASR_BACKEND`):
lowercase it, and fall back to `"whisper"` unless the result is `"whisper"` or
`"nemo"`. -/
def getAsrBackend (configured : String) : String :=
  let b := configured.toLower
  if b = "whisper" ∨ b = "nemo" then b else "whisper"

/-- `transcribe_audio` (lines 281-305), with the two concrete backends as
oracle parameters: dispatch on the selected backend, raising
`RuntimeError("Unknown ASR backend: ...")` on any other value. -/
def transcribe_audio (configured : String)
    (whisperTr nemoTr : List Nat → Except String String)
    (wav_bytes : List Nat) : Except String String :=
  let backend := getAsrBackend configured
  if backend = "whisper" then whisperTr wav_bytes
  else if backend = "nemo" then nemoTr wav_bytes
  else Except.error ("Unknown ASR backend: " ++ backend)

/-- Outcome of a transcriber call in the chunk pipeline: success,
`RuntimeError` (caught at `app.py` line 350) or any other exception (caught
at line 354). -/
inductive TrOutcome where
  | ok (text : String)
  | runtimeError (msg : String)
  | exn (msg : String)
  deriving DecidableEq, Repr

/-- A Quran word attached to an alignment match (fields read at
`app.py` lines 421-428). -/
structure QuranWord where
  aya_id : Nat
  word_index : Nat
  text : String
  deriving DecidableEq, Repr

/-- One alignment match (fields read at `app.py` lines 419-429). -/
structure AlignMatch where
  quran_word : Option QuranWord
  is_correct : Bool
  similarity : ℚ
  alignment_type : String
  spoken_word : String
  deriving DecidableEq, Repr

/-- The result of `alignment_engine.align_transcript` as consumed by
`handle_audio_chunk`. The source field `matches` is rendered `matchesList`
(`matches` is reserved in Lean). -/
structure AlignmentResult where
  matchesList : List AlignMatch
  segment_score : ℚ
  confidence : ℚ
  furthest_global_index : Int
  deriving DecidableEq, Repr

/-- Events emitted over the socket by `handle_audio_chunk`. An `errorEvent`
is any `emit('word_result', \x7b'error': ...\x7d)`; `wordResult` is a
successful per-word payload; `chunkDone` is the completion summary (its
wall-clock `processing_time` field is not modelled). -/
inductive OutEvent where
  | errorEvent (err : String) (message : Option String)
  | wordResult (aya_id : Nat) (word_index : Nat) (is_correct : Bool)
      (similarity : ℚ) (alignment_type : String) (spoken_word : String)
      (expected_word : String)
  | chunkDone (global_progress : Int) (confidence : ℚ) (mode : String)
      (segment_score : ℚ) (matches_count : Nat)
  deriving DecidableEq, Repr

/-- The WebM header handling of `handle_audio_chunk` (`app.py` lines
303-312): on the first chunk cache the first 500 bytes and pass the chunk
through unchanged; afterwards prepend the cached header. Returns the updated
state and the bytes handed to the decoder. -/
def headerUpdate (st : SessionState) (audio_data : List Nat) :
    SessionState × List Nat :=
  match st.webm_header with
  | none => ({ st with webm_header := some (audio_data.take 500) }, audio_data)
  | some h => (st, h ++ audio_data)

/-- `handle_audio_chunk` (`app.py` lines 280-450) as a state transformer on
the chunk's session, parameterized by the external collaborators: `dec` is
the ffmpeg decode (WebM bytes to WAV bytes, may fail), `tr` the ASR
transcriber on the cumulative buffer, `normalize` the `normalize_text` of
`quran_alignment` (not part of the backend sources), and `align` the
alignment engine (spoken words, anchor, mode; the page-verse list the engine
also receives is folded into the oracle). `τ` and `maxLow` are the session
manager's confidence threshold and low-confidence limit. Returns the
post-chunk session state and the emitted events, in order. -/
def handle_audio_chunk (τ : ℚ) (maxLow : Nat)
    (dec : List Nat → Except String (List Nat))
    (tr : List Nat → TrOutcome)
    (normalize : String → String)
    (align : List String → Int → String → AlignmentResult)
    (st : SessionState) (data : List Nat) : SessionState × List OutEvent :=
  let hu := headerUpdate st data
  let st1 := hu.1
  match dec hu.2 with
  | Except.error e =>
      (st1, [OutEvent.errorEvent ("Audio conversion failed: " ++ e) none])
  | Except.ok wav =>
      let st2 := st1.add_audio_to_buffer wav 2
      match tr st2.get_cumulative_audio with
      | TrOutcome.runtimeError m => (st2, [OutEvent.errorEvent "asr_error" (some m)])
      | TrOutcome.exn m => (st2, [OutEvent.errorEvent "transcription_failed" (some m)])
      | TrOutcome.ok transcription =>
          if transcription.trim = "" then
            (st2, [OutEvent.errorEvent "No speech detected" none])
          else
            let spoken_words :=
              ((normalize transcription).splitOn " ").filter (fun w => w ≠ "")
            if spoken_words = [] then
              (st2, [OutEvent.errorEvent "No valid words detected" none])
            else
              let result := align spoken_words st2.global_word_pos st2.mode
              let st3 := st2.update_from_alignment τ maxLow
                result.confidence result.furthest_global_index
              let wordEvents := result.matchesList.filterMap fun mt =>
                match mt.quran_word with
                | some qw => some (OutEvent.wordResult qw.aya_id qw.word_index
                    mt.is_correct mt.similarity mt.alignment_type mt.spoken_word qw.text)
                | none => none
              (st3, wordEvents ++ [OutEvent.chunkDone st3.global_word_pos
                result.confidence st3.mode result.segment_score result.matchesList.length])

/-! ### Helper lemmas -/

/-- Looking up a key right after storing it finds the stored state. -/
theorem lookupSession_storeSession (l : List (String × SessionState))
    (sid : String) (st : SessionState) :
    lookupSession (storeSession l sid st) sid = some st := by
  induction l with
  | nil => simp [storeSession, lookupSession]
  | cons hd tl ih =>
      by_cases h : hd.1 = sid
      · simp [storeSession, lookupSession, h]
      · simp only [storeSession, lookupSession]
        rw [if_neg h, lookupSession, if_neg h]
        exact ih

/-- `stripWavHeader` coincides with dropping the first 44 bytes: a chunk of
44 bytes or fewer has nothing past its header either way. -/
theorem stripWavHeader_eq_drop (chunk : List Nat) :
    stripWavHeader chunk = chunk.drop 44 := by
  unfold stripWavHeader
  by_cases h : 44 < chunk.length
  · rw [if_pos h]
  · rw [if_neg h, List.drop_eq_nil_of_le (by omega)]

/-- Folding concatenation with an accumulator splits off the accumulator. -/
theorem foldr_append_acc (l : List (List Nat)) (acc : List Nat) :
    l.foldr (· ++ ·) acc = l.foldr (· ++ ·) [] ++ acc := by
  induction l with
  | nil => simp
  | cons hd tl ih => simp [List.foldr_cons, ih, List.append_assoc]

/-! ### Claims -/

/-- Claim C8: for every session id absent from the session map, `get_session`
creates and returns a fresh session in the initial state — mode `"tracking"`,
`global_word_pos` 0, `last_confidence` 0, zero low-confidence streak, no
cached codec header, empty audio ring with zero recorded duration (and the
manager's configured maximum buffer duration) — and stores it in the map. -/
theorem get_session_creates_fresh (m : SessionManager) (sid : String)
    (h : lookupSession m.sessions sid = none) :
    (m.get_session sid).1 =
      { global_word_pos := 0
        last_confidence := 0
        mode := "tracking"
        consecutive_low_confidence := 0
        webm_header := none
        audio_buffer_wav := []
        audio_buffer_duration := 0
        max_buffer_duration := m.audio_buffer_max_duration }
    ∧ lookupSession (m.get_session sid).2.sessions sid = some (m.get_session sid).1 := by
  unfold SessionManager.get_session
  rw [h]
  unfold SessionManager.create_session
  exact ⟨rfl, lookupSession_storeSession _ _ _⟩

/-- Witness for C8: a manager with an empty session map has no `"s"` entry,
and `get_session` hands back the fresh initial state. -/
theorem get_session_creates_fresh_witness :
    (({} : SessionManager).get_session "s").1 =
      { global_word_pos := 0
        last_confidence := 0
        mode := "tracking"
        consecutive_low_confidence := 0
        webm_header := none
        audio_buffer_wav := []
        audio_buffer_duration := 0
        max_buffer_duration := ({} : SessionManager).audio_buffer_max_duration }
    ∧ lookupSession (({} : SessionManager).get_session "s").2.sessions "s"
        = some (({} : SessionManager).get_session "s").1 :=
  get_session_creates_fresh {} "s" rfl

/-- Claim C9: whatever backend string is configured, `_get_asr_backend`
returns `"whisper"` or `"nemo"` (anything else lowercases and falls back to
`"whisper"`), so `transcribe_audio` always dispatches to one of the two
backends and its `Unknown ASR backend` RuntimeError branch is unreachable. -/
theorem asr_backend_always_known (configured : String)
    (whisperTr nemoTr : List Nat → Except String String) (wav : List Nat) :
    (getAsrBackend configured = "whisper" ∨ getAsrBackend configured = "nemo")
    ∧ transcribe_audio configured whisperTr nemoTr wav
        = (if getAsrBackend configured = "whisper" then whisperTr wav else nemoTr wav) := by
  unfold transcribe_audio getAsrBackend
  by_cases h : configured.toLower = "whisper" ∨ configured.toLower = "nemo"
  · rcases h with h | h <;> simp [h]
  · simp [h]

/-- Claim C10: `get_cumulative_audio` on an empty ring returns the empty byte
string; on a single-chunk ring it returns that chunk byte-for-byte; and a
subsequent chunk of 44 bytes or fewer contributes nothing at all to the
concatenated output. -/
theorem get_cumulative_audio_edge_cases (st : SessionState) :
    (st.audio_buffer_wav = [] → st.get_cumulative_audio = [])
    ∧ (∀ c, st.audio_buffer_wav = [c] → st.get_cumulative_audio = c)
    ∧ (∀ (buf : List (List Nat)) (ch : List Nat), buf ≠ [] → ch.length ≤ 44 →
        SessionState.get_cumulative_audio { st with audio_buffer_wav := buf ++ [ch] }
          = SessionState.get_cumulative_audio { st with audio_buffer_wav := buf }) := by
  refine ⟨fun h => by simp [SessionState.get_cumulative_audio, h],
          fun c h => by simp [SessionState.get_cumulative_audio, h], ?_⟩
  intro buf ch hne hlen
  have hstrip : stripWavHeader ch = [] := by
    unfold stripWavHeader
    rw [if_neg (by omega)]
  match buf, hne with
  | [c], _ =>
      simp [SessionState.get_cumulative_audio, hstrip]
  | c :: c2 :: rest, _ =>
      show c ++ ((c2 :: rest ++ [ch]).map stripWavHeader).foldr (· ++ ·) []
          = c ++ ((c2 :: rest).map stripWavHeader).foldr (· ++ ·) []
      rw [List.map_append, List.foldr_append]
      simp [hstrip]

/-- Witness for C10: on the concrete ring `[[1,2], [3]]` with a 1-byte
(≤ 44) second chunk, the edge cases evaluate as claimed. -/
theorem get_cumulative_audio_edge_cases_witness :
    (({} : SessionState).audio_buffer_wav = [] → ({} : SessionState).get_cumulative_audio = [])
    ∧ SessionState.get_cumulative_audio
        { ({} : SessionState) with audio_buffer_wav := [[1, 2]] ++ [[3]] }
      = SessionState.get_cumulative_audio
        { ({} : SessionState) with audio_buffer_wav := [[1, 2]] } := by
  refine ⟨(get_cumulative_audio_edge_cases {}).1, ?_⟩
  exact (get_cumulative_audio_edge_cases {}).2.2 [[1, 2]] [3]
    (by simp) (by simp)

/-- Claim C6: for every ring holding at least two chunks,
`get_cumulative_audio` returns the first chunk's bytes in full followed by,
for each subsequent chunk in order, that chunk's bytes with its first 44
bytes removed. -/
theorem get_cumulative_audio_concat (st : SessionState) (c : List Nat)
    (rest : List (List Nat)) (h : st.audio_buffer_wav = c :: rest) (hne : rest ≠ []) :
    st.get_cumulative_audio = c ++ (rest.map (fun ch => ch.drop 44)).foldr (· ++ ·) [] := by
  match rest, hne with
  | c2 :: rest2, _ =>
      unfold SessionState.get_cumulative_audio
      rw [h]
      have : stripWavHeader = fun ch => ch.drop 44 := funext stripWavHeader_eq_drop
      rw [this]

/-- Witness for C6: a two-chunk ring whose second chunk is 46 bytes long
concatenates the first chunk with the last two bytes of the second. -/
theorem get_cumulative_audio_concat_witness :
    SessionState.get_cumulative_audio
        { ({} : SessionState) with
          audio_buffer_wav := [[9, 9], List.replicate 44 0 ++ [7, 8]] }
      = [9, 9] ++ ([List.replicate 44 0 ++ [7, 8]].map (fun ch => ch.drop 44)).foldr (· ++ ·) [] :=
  get_cumulative_audio_concat _ [9, 9] [List.replicate 44 0 ++ [7, 8]] rfl (by simp)

/-- One `update_from_alignment` call never decreases the anchor. -/
theorem update_pos_le (τ : ℚ) (maxLow : Nat) (st : SessionState)
    (confidence : ℚ) (furthest : Int) :
    st.global_word_pos
      ≤ (st.update_from_alignment τ maxLow confidence furthest).global_word_pos :=
  le_max_left _ _

/-- Claim C5: every `update_from_alignment` sets the anchor to
`max(global_word_pos, furthest_global_index)`, so over any sequence of
updates the anchor is non-decreasing, and `reset_session_progress` sets it
back to 0. -/
theorem anchor_monotone (τ : ℚ) (maxLow : Nat) (st : SessionState)
    (confidence : ℚ) (furthest : Int) :
    (st.update_from_alignment τ maxLow confidence furthest).global_word_pos
        = max st.global_word_pos furthest
    ∧ (∀ updates : List (ℚ × Int),
        st.global_word_pos ≤ (applyUpdates τ maxLow st updates).global_word_pos)
    ∧ (st.reset_session_progress).global_word_pos = 0 := by
  refine ⟨rfl, ?_, rfl⟩
  intro updates
  induction updates generalizing st with
  | nil => exact le_refl _
  | cons u us ih =>
      exact le_trans (update_pos_le τ maxLow st u.1 u.2)
        (ih (st.update_from_alignment τ maxLow u.1 u.2))

/-- The streak stored by an update, read off the definition. -/
theorem update_streak_val (τ : ℚ) (maxLow : Nat) (st : SessionState)
    (confidence : ℚ) (furthest : Int) :
    (st.update_from_alignment τ maxLow confidence furthest).consecutive_low_confidence
      = if confidence < τ then st.consecutive_low_confidence + 1 else 0 := rfl

/-- The mode stored by an update, read off the definition. -/
theorem update_mode_val (τ : ℚ) (maxLow : Nat) (st : SessionState)
    (confidence : ℚ) (furthest : Int) :
    (st.update_from_alignment τ maxLow confidence furthest).mode
      = if maxLow ≤ (if confidence < τ then st.consecutive_low_confidence + 1 else 0)
        then "search" else "tracking" := rfl

/-- The mode stored by an update is `"search"` exactly when the stored
low-confidence streak has reached the limit. -/
theorem update_mode_iff_streak (τ : ℚ) (maxLow : Nat) (st : SessionState)
    (confidence : ℚ) (furthest : Int) :
    (st.update_from_alignment τ maxLow confidence furthest).mode = "search"
      ↔ maxLow ≤ (st.update_from_alignment τ maxLow confidence furthest).consecutive_low_confidence := by
  rw [update_mode_val, update_streak_val]
  by_cases h : maxLow ≤ (if confidence < τ then st.consecutive_low_confidence + 1 else 0)
  · simp [h]
  · simp [h]

/-- A run of consecutive low-confidence updates long enough to push the
streak past the limit leaves the session in `"search"` mode. -/
theorem low_run_reaches_search (τ : ℚ) (maxLow : Nat) :
    ∀ (updates : List (ℚ × Int)) (st : SessionState), updates ≠ [] →
      (∀ u ∈ updates, u.1 < τ) →
      maxLow ≤ st.consecutive_low_confidence + updates.length →
      (applyUpdates τ maxLow st updates).mode = "search" := by
  intro updates
  induction updates with
  | nil => intro st h; exact absurd rfl h
  | cons u us ih =>
      intro st _ hlow hlen
      have hu : u.1 < τ := hlow u (List.mem_cons_self u us)
      match us, ih with
      | [], _ =>
          show (st.update_from_alignment τ maxLow u.1 u.2).mode = "search"
          unfold SessionState.update_from_alignment
          simp only [if_pos hu]
          rw [if_pos (by simpa using hlen)]
      | u2 :: us2, ih =>
          show (applyUpdates τ maxLow (st.update_from_alignment τ maxLow u.1 u.2) (u2 :: us2)).mode = "search"
          refine ih _ (by simp) (fun v hv => hlow v (List.mem_cons_of_mem u hv)) ?_
          have : (st.update_from_alignment τ maxLow u.1 u.2).consecutive_low_confidence
              = st.consecutive_low_confidence + 1 := by
            unfold SessionState.update_from_alignment
            simp [if_pos hu]
          rw [this]
          simp only [List.length_cons] at hlen ⊢
          omega

/-- Claim C4: the two-state confidence controller. A streak of
`MAX_LOW_CONFIDENCE` consecutive updates with confidence below the threshold
puts the session in `"search"` mode; a single update at or above the
threshold resets the streak to 0 and returns the mode to `"tracking"`; a
below-threshold update from a controller-reachable `"search"` state keeps the
mode `"search"`. -/
theorem mode_controller (τ : ℚ) (maxLow : Nat) (hpos : 1 ≤ maxLow) :
    (∀ (st : SessionState) (updates : List (ℚ × Int)),
        updates.length = maxLow → (∀ u ∈ updates, u.1 < τ) →
        (applyUpdates τ maxLow st updates).mode = "search")
    ∧ (∀ (st : SessionState) (confidence : ℚ) (furthest : Int), τ ≤ confidence →
        (st.update_from_alignment τ maxLow confidence furthest).mode = "tracking"
        ∧ (st.update_from_alignment τ maxLow confidence furthest).consecutive_low_confidence = 0)
    ∧ (∀ (st0 : SessionState) (c0 : ℚ) (f0 : Int) (confidence : ℚ) (furthest : Int),
        (st0.update_from_alignment τ maxLow c0 f0).mode = "search" → confidence < τ →
        ((st0.update_from_alignment τ maxLow c0 f0).update_from_alignment
            τ maxLow confidence furthest).mode = "search") := by
  refine ⟨?_, ?_, ?_⟩
  · intro st updates hlen hlow
    refine low_run_reaches_search τ maxLow updates st ?_ hlow (by omega)
    intro hnil
    rw [hnil] at hlen
    simp at hlen
    omega
  · intro st confidence furthest hc
    have hnotlt : ¬ confidence < τ := not_lt.mpr hc
    constructor
    · rw [update_mode_val, if_neg hnotlt, if_neg (by omega)]
    · rw [update_streak_val, if_neg hnotlt]
  · intro st0 c0 f0 confidence furthest hsearch hc
    have hstreak := (update_mode_iff_streak τ maxLow st0 c0 f0).mp hsearch
    set st := st0.update_from_alignment τ maxLow c0 f0 with hst
    unfold SessionState.update_from_alignment
    simp only [if_pos hc]
    rw [if_pos (by omega)]

/-- Witness for C4: with threshold 2/5 and limit 3, three zero-confidence
updates from the fresh state put the session in `"search"` mode. -/
theorem mode_controller_witness :
    (applyUpdates (2/5) 3 {} [(0, 0), (0, 0), (0, 0)]).mode = "search" :=
  (mode_controller (2/5) 3 (by norm_num)).1 {} [(0, 0), (0, 0), (0, 0)] rfl
    (by intro u hu; fin_cases hu <;> norm_num)

/-- The trim loop exits only when the recorded duration is within the cap or
a single chunk remains. -/
theorem trimBuffer_exit (maxDur : ℚ) :
    ∀ (buf : List (List Nat)) (d : ℚ), buf ≠ [] →
      (trimBuffer maxDur buf d).2 ≤ maxDur ∨ (trimBuffer maxDur buf d).1.length = 1 := by
  intro buf
  induction buf with
  | nil => intro d h; exact absurd rfl h
  | cons c rest ih =>
      intro d _
      match rest, ih with
      | [], _ => right; rfl
      | c2 :: rest2, ih =>
          by_cases h : maxDur < d
          · show (trimBuffer maxDur (c :: c2 :: rest2) d).2 ≤ maxDur
                ∨ (trimBuffer maxDur (c :: c2 :: rest2) d).1.length = 1
            rw [trimBuffer, if_pos h]
            exact ih (d - 2) (by simp)
          · left
            show (trimBuffer maxDur (c :: c2 :: rest2) d).2 ≤ maxDur
            rw [trimBuffer, if_neg h]
            exact le_of_not_lt h

/-- A single append leaves the ring within its cap or with exactly one
chunk; the configured cap is untouched. -/
theorem add_audio_step_invariant (st : SessionState) (wav : List Nat) (dur : ℚ) :
    ((st.add_audio_to_buffer wav dur).audio_buffer_duration ≤ st.max_buffer_duration
      ∨ (st.add_audio_to_buffer wav dur).audio_buffer_wav.length = 1)
    ∧ (st.add_audio_to_buffer wav dur).max_buffer_duration = st.max_buffer_duration := by
  refine ⟨?_, rfl⟩
  exact trimBuffer_exit st.max_buffer_duration (st.audio_buffer_wav ++ [wav])
    (st.audio_buffer_duration + dur) (by simp)

/-- Appending never changes the configured cap, over any sequence. -/
theorem applyAdds_max_buffer (st : SessionState) (calls : List (List Nat × ℚ)) :
    (applyAdds st calls).max_buffer_duration = st.max_buffer_duration := by
  induction calls generalizing st with
  | nil => rfl
  | cons c cs ih => exact (ih _).trans rfl

/-- Claim C3: for every session and every sequence of `add_audio_to_buffer`
calls with non-negative durations, after each call either the recorded
duration is at most the configured maximum buffer duration or exactly one
chunk is present. -/
theorem ring_cap_invariant (m : SessionManager) (sid : String)
    (calls : List (List Nat × ℚ)) (i : Nat)
    (hnn : ∀ c ∈ calls, 0 ≤ c.2) (hi : i < calls.length) :
    (applyAdds (m.create_session sid).1 (calls.take (i + 1))).audio_buffer_duration
        ≤ m.audio_buffer_max_duration
    ∨ (applyAdds (m.create_session sid).1 (calls.take (i + 1))).audio_buffer_wav.length = 1 := by
  have htake : calls.take (i + 1) = calls.take i ++ [calls.get ⟨i, hi⟩] := by
    rw [List.take_succ, List.getElem?_eq_getElem hi]
    rfl
  rw [htake]
  have hfold : applyAdds (m.create_session sid).1 (calls.take i ++ [calls.get ⟨i, hi⟩])
      = (applyAdds (m.create_session sid).1 (calls.take i)).add_audio_to_buffer
          (calls.get ⟨i, hi⟩).1 (calls.get ⟨i, hi⟩).2 := by
    unfold applyAdds
    rw [List.foldl_append]
    rfl
  rw [hfold]
  have hstep := add_audio_step_invariant (applyAdds (m.create_session sid).1 (calls.take i))
    (calls.get ⟨i, hi⟩).1 (calls.get ⟨i, hi⟩).2
  have hmax : (applyAdds (m.create_session sid).1 (calls.take i)).max_buffer_duration
      = m.audio_buffer_max_duration := by
    rw [applyAdds_max_buffer]
    rfl
  rw [hmax] at hstep
  exact hstep.1

/-- Witness for C3: two 5-second appends to a fresh default session (cap 8)
leave the ring within the cap or holding one chunk. -/
theorem ring_cap_invariant_witness :
    (applyAdds (({} : SessionManager).create_session "s").1 ([([0], 5), ([1], 5)].take (1 + 1))).audio_buffer_duration
        ≤ ({} : SessionManager).audio_buffer_max_duration
    ∨ (applyAdds (({} : SessionManager).create_session "s").1 ([([0], 5), ([1], 5)].take (1 + 1))).audio_buffer_wav.length = 1 :=
  ring_cap_invariant {} "s" [([0], 5), ([1], 5)] 1
    (by intro c hc; fin_cases hc <;> norm_num) (by norm_num)

/-- Counterexample to C2 as stated: appending two 5-second chunks to a fresh
ring (cap 8) triggers one eviction. The source subtracts the hard-coded
2-second estimate, leaving a recorded duration of 8; subtracting the evicted
chunk's own duration, as the claim states, would leave 5. -/
theorem evict_own_duration_counterexample :
    (SessionState.add_audio_to_buffer
        (SessionState.add_audio_to_buffer {} [0] 5) [1] 5).audio_buffer_wav = [[1]]
    ∧ (SessionState.add_audio_to_buffer
        (SessionState.add_audio_to_buffer {} [0] 5) [1] 5).audio_buffer_duration = 8
    ∧ (addAudioSpec 8 (addAudioSpec 8 ([], 0) [0] 5) [1] 5).1 = [([1], 5)]
    ∧ (addAudioSpec 8 (addAudioSpec 8 ([], 0) [0] 5) [1] 5).2 = 5
    ∧ (8 : ℚ) ≠ 5 := by
  refine ⟨?_, ?_, ?_, ?_, by norm_num⟩ <;>
    norm_num [SessionState.add_audio_to_buffer, trimBuffer, addAudioSpec, trimBufferSpec]

/-- The trim loop drops some front segment of the ring, subtracting exactly
2 seconds per evicted chunk; every eviction happens only while the recorded
duration exceeds the cap with at least two chunks present, and the loop exits
within the cap or with a single chunk. -/
theorem trimBuffer_drops_front (maxDur : ℚ) :
    ∀ (buf : List (List Nat)) (d : ℚ), buf ≠ [] →
      ∃ k : Nat, k < buf.length
        ∧ (trimBuffer maxDur buf d).1 = buf.drop k
        ∧ (trimBuffer maxDur buf d).2 = d - 2 * k
        ∧ (∀ j : Nat, j < k → maxDur < d - 2 * j ∧ j + 1 < buf.length)
        ∧ ((trimBuffer maxDur buf d).2 ≤ maxDur ∨ (trimBuffer maxDur buf d).1.length = 1) := by
  intro buf
  induction buf with
  | nil => intro d h; exact absurd rfl h
  | cons c rest ih =>
      intro d _
      match rest, ih with
      | [], _ =>
          refine ⟨0, by simp, rfl, ?_, by omega, Or.inr rfl⟩
          simp [trimBuffer]
      | c2 :: rest2, ih =>
          by_cases h : maxDur < d
          · obtain ⟨k, hk, hbuf, hdur, hsteps, hexit⟩ := ih (d - 2) (by simp)
            have heq : trimBuffer maxDur (c :: c2 :: rest2) d
                = trimBuffer maxDur (c2 :: rest2) (d - 2) := by
              rw [trimBuffer, if_pos h]
            refine ⟨k + 1, by simpa using Nat.succ_lt_succ hk, ?_, ?_, ?_, ?_⟩
            · rw [heq, hbuf]
              rfl
            · rw [heq, hdur]
              push_cast
              ring
            · intro j hj
              rcases j with _ | j'
              · refine ⟨by simpa using h, ?_⟩
                simp only [List.length_cons]
                omega
              · have hj' : j' < k := by omega
                obtain ⟨h1, h2⟩ := hsteps j' hj'
                refine ⟨?_, ?_⟩
                · push_cast at h1 ⊢
                  linarith
                · simp only [List.length_cons] at h2 ⊢
                  omega
            · rw [heq]
              exact hexit
          · refine ⟨0, by simp, ?_, ?_, by omega, ?_⟩
            · rw [trimBuffer, if_neg h]
              rfl
            · rw [trimBuffer, if_neg h]
              norm_num
            · left
              rw [trimBuffer, if_neg h]
              exact le_of_not_lt h

/-- Claim C2 (amended): when an append overflows the cap, chunks are evicted
from the front one at a time, each eviction subtracting the hard-coded
2-second estimate — not the chunk's own duration — and only while more than
one chunk remains, so the sole remaining chunk is never evicted. -/
theorem add_audio_evicts_fixed_estimate (st : SessionState) (wav : List Nat) (dur : ℚ) :
    ∃ k : Nat,
      k < (st.audio_buffer_wav ++ [wav]).length
      ∧ (st.add_audio_to_buffer wav dur).audio_buffer_wav
          = (st.audio_buffer_wav ++ [wav]).drop k
      ∧ (st.add_audio_to_buffer wav dur).audio_buffer_duration
          = st.audio_buffer_duration + dur - 2 * k
      ∧ (∀ j : Nat, j < k → st.max_buffer_duration < st.audio_buffer_duration + dur - 2 * j
          ∧ j + 1 < (st.audio_buffer_wav ++ [wav]).length)
      ∧ ((st.add_audio_to_buffer wav dur).audio_buffer_duration ≤ st.max_buffer_duration
          ∨ (st.add_audio_to_buffer wav dur).audio_buffer_wav.length = 1) :=
  trimBuffer_drops_front st.max_buffer_duration (st.audio_buffer_wav ++ [wav])
    (st.audio_buffer_duration + dur) (by simp)

/-- Witness for the amended C2 at a concrete overflowing append: from a ring
holding one 5-second chunk, a second 5-second append evicts the front chunk
with the 2-second estimate. -/
theorem add_audio_evicts_fixed_estimate_witness :
    ∃ k : Nat,
      k < ((SessionState.add_audio_to_buffer {} [0] 5).audio_buffer_wav ++ [[1]]).length
      ∧ (SessionState.add_audio_to_buffer
            (SessionState.add_audio_to_buffer {} [0] 5) [1] 5).audio_buffer_wav
          = ((SessionState.add_audio_to_buffer {} [0] 5).audio_buffer_wav ++ [[1]]).drop k
      ∧ (SessionState.add_audio_to_buffer
            (SessionState.add_audio_to_buffer {} [0] 5) [1] 5).audio_buffer_duration
          = (SessionState.add_audio_to_buffer {} [0] 5).audio_buffer_duration + 5 - 2 * k
      ∧ (∀ j : Nat, j < k →
          (SessionState.add_audio_to_buffer {} [0] 5).max_buffer_duration
              < (SessionState.add_audio_to_buffer {} [0] 5).audio_buffer_duration + 5 - 2 * j
          ∧ j + 1 < ((SessionState.add_audio_to_buffer {} [0] 5).audio_buffer_wav ++ [[1]]).length)
      ∧ ((SessionState.add_audio_to_buffer
            (SessionState.add_audio_to_buffer {} [0] 5) [1] 5).audio_buffer_duration
            ≤ (SessionState.add_audio_to_buffer {} [0] 5).max_buffer_duration
          ∨ (SessionState.add_audio_to_buffer
            (SessionState.add_audio_to_buffer {} [0] 5) [1] 5).audio_buffer_wav.length = 1) :=
  add_audio_evicts_fixed_estimate (SessionState.add_audio_to_buffer {} [0] 5) [1] 5

/-- Appending audio never touches the cached codec header. -/
theorem add_audio_webm_header (st : SessionState) (wav : List Nat) (dur : ℚ) :
    (st.add_audio_to_buffer wav dur).webm_header = st.webm_header := rfl

/-- Alignment updates never touch the cached codec header. -/
theorem update_webm_header (τ : ℚ) (maxLow : Nat) (st : SessionState)
    (confidence : ℚ) (furthest : Int) :
    (st.update_from_alignment τ maxLow confidence furthest).webm_header = st.webm_header := rfl

/-- Whatever the chunk's fate, the session leaves `handle_audio_chunk` with
the codec header that the header-persistence step produced. -/
theorem handle_preserves_header (τ : ℚ) (maxLow : Nat)
    (dec : List Nat → Except String (List Nat)) (tr : List Nat → TrOutcome)
    (normalize : String → String)
    (align : List String → Int → String → AlignmentResult)
    (st : SessionState) (data : List Nat) :
    (handle_audio_chunk τ maxLow dec tr normalize align st data).1.webm_header
      = (headerUpdate st data).1.webm_header := by
  simp only [handle_audio_chunk]
  cases hdec : dec (headerUpdate st data).2 with
  | error e => rfl
  | ok wav =>
      simp only []
      cases htr : tr ((headerUpdate st data).1.add_audio_to_buffer wav 2).get_cumulative_audio with
      | runtimeError m => rfl
      | exn m => rfl
      | ok transcription =>
          dsimp only
          by_cases hempty : transcription.trim = ""
          · rw [if_pos hempty]
            rfl
          · rw [if_neg hempty]
            by_cases hwords : ((normalize transcription).splitOn " ").filter (fun w => w ≠ "") = []
            · rw [if_pos hwords]
              rfl
            · rw [if_neg hwords]
              rfl

/-- `handle_audio_chunk` consults the decoder only at the header-patched
bytes: decoders that agree there give identical behaviour. -/
theorem handle_decoder_congr (τ : ℚ) (maxLow : Nat)
    (dec dec2 : List Nat → Except String (List Nat)) (tr : List Nat → TrOutcome)
    (normalize : String → String)
    (align : List String → Int → String → AlignmentResult)
    (st : SessionState) (data : List Nat)
    (h : dec2 (headerUpdate st data).2 = dec (headerUpdate st data).2) :
    handle_audio_chunk τ maxLow dec2 tr normalize align st data
      = handle_audio_chunk τ maxLow dec tr normalize align st data := by
  simp only [handle_audio_chunk]
  rw [h]

/-- Claim C7: when the session's cached codec header is absent, the first
500 bytes of the incoming chunk are stored as the header (and survive the
whole handler) and the chunk reaches the decoder unchanged — the handler's
behaviour depends on the decoder only through its value at the raw chunk; on
every subsequent chunk the stored header bytes are prepended before
decoding — the behaviour depends on the decoder only through its value at
`header ++ chunk`. -/
theorem codec_header_persistence (τ : ℚ) (maxLow : Nat)
    (dec : List Nat → Except String (List Nat)) (tr : List Nat → TrOutcome)
    (normalize : String → String)
    (align : List String → Int → String → AlignmentResult)
    (st : SessionState) (data : List Nat) :
    (st.webm_header = none →
      headerUpdate st data = ({ st with webm_header := some (data.take 500) }, data)
      ∧ (handle_audio_chunk τ maxLow dec tr normalize align st data).1.webm_header
          = some (data.take 500)
      ∧ (∀ dec2 : List Nat → Except String (List Nat), dec2 data = dec data →
          handle_audio_chunk τ maxLow dec2 tr normalize align st data
            = handle_audio_chunk τ maxLow dec tr normalize align st data))
    ∧ (∀ h0 : List Nat, st.webm_header = some h0 →
      headerUpdate st data = (st, h0 ++ data)
      ∧ (handle_audio_chunk τ maxLow dec tr normalize align st data).1.webm_header
          = some h0
      ∧ (∀ dec2 : List Nat → Except String (List Nat),
          dec2 (h0 ++ data) = dec (h0 ++ data) →
          handle_audio_chunk τ maxLow dec2 tr normalize align st data
            = handle_audio_chunk τ maxLow dec tr normalize align st data)) := by
  constructor
  · intro hnone
    have hhu : headerUpdate st data
        = ({ st with webm_header := some (data.take 500) }, data) := by
      rw [headerUpdate, hnone]
    refine ⟨hhu, ?_, ?_⟩
    · rw [handle_preserves_header, hhu]
    · intro dec2 hagree
      exact handle_decoder_congr τ maxLow dec dec2 tr normalize align st data
        (by rw [hhu]; exact hagree)
  · intro h0 hsome
    have hhu : headerUpdate st data = (st, h0 ++ data) := by
      rw [headerUpdate, hsome]
    refine ⟨hhu, ?_, ?_⟩
    · rw [handle_preserves_header, hhu]
      exact hsome
    · intro dec2 hagree
      exact handle_decoder_congr τ maxLow dec dec2 tr normalize align st data
        (by rw [hhu]; exact hagree)

/-- Constant decoder failing with message `"x"`, for concrete evaluations. -/
def decFailX : List Nat → Except String (List Nat) := fun _ => Except.error "x"

/-- Constant decoder returning the 45-byte WAV stub `0,...,0`, for concrete
evaluations. -/
def decOkStub : List Nat → Except String (List Nat) :=
  fun _ => Except.ok (List.replicate 45 0)

/-- Constant transcriber failing with a `RuntimeError`, for concrete
evaluations. -/
def trRuntimeErr : List Nat → TrOutcome := fun _ => TrOutcome.runtimeError "m"

/-- Constant successful transcriber, for concrete evaluations. -/
def trOkText : List Nat → TrOutcome := fun _ => TrOutcome.ok "t"

/-- Identity normalizer, for concrete evaluations. -/
def normId : String → String := fun s => s

/-- Constant alignment oracle with empty matches, for concrete evaluations. -/
def alignEmpty : List String → Int → String → AlignmentResult :=
  fun _ _ _ => { matchesList := [], segment_score := 0, confidence := 1, furthest_global_index := 4 }

/-- Witness for C7: a fresh session (no cached header) processing the chunk
`[1, 2, 3]` caches exactly `[1, 2, 3]` as its header. -/
theorem codec_header_persistence_witness :
    headerUpdate {} [1, 2, 3]
      = ({ ({} : SessionState) with webm_header := some ([1, 2, 3].take 500) }, [1, 2, 3])
    ∧ (handle_audio_chunk (2/5) 3 decOkStub trOkText normId alignEmpty {} [1, 2, 3]).1.webm_header
        = some ([1, 2, 3].take 500) :=
  ⟨((codec_header_persistence (2/5) 3 decOkStub trOkText normId alignEmpty {} [1, 2, 3]).1 rfl).1,
   ((codec_header_persistence (2/5) 3 decOkStub trOkText normId alignEmpty {} [1, 2, 3]).1 rfl).2.1⟩

/-- The header-persistence step touches no session field other than the
cached codec header. -/
theorem headerUpdate_preserves (st : SessionState) (data : List Nat) :
    (headerUpdate st data).1.global_word_pos = st.global_word_pos
    ∧ (headerUpdate st data).1.last_confidence = st.last_confidence
    ∧ (headerUpdate st data).1.mode = st.mode
    ∧ (headerUpdate st data).1.consecutive_low_confidence = st.consecutive_low_confidence
    ∧ (headerUpdate st data).1.audio_buffer_wav = st.audio_buffer_wav
    ∧ (headerUpdate st data).1.audio_buffer_duration = st.audio_buffer_duration := by
  cases h : st.webm_header <;> simp [headerUpdate, h]

/-- Counterexample to C1 as stated: a fresh session (no cached codec header)
receives the chunk `[1, 2, 3]` and the decoder fails. The handler does emit
an error event, but the session leaves the call with `webm_header` changed
from `none` to `some [1, 2, 3]` — not "exactly as it was before the chunk
arrived". -/
theorem failing_chunk_mutates_counterexample :
    (handle_audio_chunk (2/5) 3 decFailX trOkText normId alignEmpty {} [1, 2, 3]).2
      = [OutEvent.errorEvent "Audio conversion failed: x" none]
    ∧ (handle_audio_chunk (2/5) 3 decFailX trOkText normId alignEmpty {} [1, 2, 3]).1.webm_header
      = some [1, 2, 3]
    ∧ ({} : SessionState).webm_header = none
    ∧ some [1, 2, 3] ≠ (none : Option (List Nat)) := by
  refine ⟨?_, ?_, rfl, by simp⟩ <;>
    simp [handle_audio_chunk, headerUpdate, decFailX]

/-- Claim C1 (amended): a failing chunk emits exactly one error event and
leaves the alignment-tracking state (`global_word_pos`, `last_confidence`,
`mode`, `consecutive_low_confidence`) unchanged; but the codec-header cache
is written before decoding (a first chunk's header survives even a decoder
failure), and the chunk is appended to the audio ring before transcription,
so on transcriber failure or an empty transcript the ring — not the rest of
the state — retains the chunk. -/
theorem failing_chunk_localized (τ : ℚ) (maxLow : Nat)
    (dec : List Nat → Except String (List Nat)) (tr : List Nat → TrOutcome)
    (normalize : String → String)
    (align : List String → Int → String → AlignmentResult)
    (st : SessionState) (data : List Nat) :
    (∀ e, dec (headerUpdate st data).2 = Except.error e →
        handle_audio_chunk τ maxLow dec tr normalize align st data
          = ((headerUpdate st data).1,
              [OutEvent.errorEvent ("Audio conversion failed: " ++ e) none])
        ∧ (headerUpdate st data).1.global_word_pos = st.global_word_pos
        ∧ (headerUpdate st data).1.last_confidence = st.last_confidence
        ∧ (headerUpdate st data).1.mode = st.mode
        ∧ (headerUpdate st data).1.consecutive_low_confidence = st.consecutive_low_confidence
        ∧ (headerUpdate st data).1.audio_buffer_wav = st.audio_buffer_wav
        ∧ (headerUpdate st data).1.audio_buffer_duration = st.audio_buffer_duration)
    ∧ (∀ wav, dec (headerUpdate st data).2 = Except.ok wav →
        ((headerUpdate st data).1.add_audio_to_buffer wav 2).global_word_pos = st.global_word_pos
        ∧ ((headerUpdate st data).1.add_audio_to_buffer wav 2).last_confidence = st.last_confidence
        ∧ ((headerUpdate st data).1.add_audio_to_buffer wav 2).mode = st.mode
        ∧ ((headerUpdate st data).1.add_audio_to_buffer wav 2).consecutive_low_confidence
            = st.consecutive_low_confidence
        ∧ (∀ m, tr ((headerUpdate st data).1.add_audio_to_buffer wav 2).get_cumulative_audio
              = TrOutcome.runtimeError m →
            handle_audio_chunk τ maxLow dec tr normalize align st data
              = ((headerUpdate st data).1.add_audio_to_buffer wav 2,
                  [OutEvent.errorEvent "asr_error" (some m)]))
        ∧ (∀ m, tr ((headerUpdate st data).1.add_audio_to_buffer wav 2).get_cumulative_audio
              = TrOutcome.exn m →
            handle_audio_chunk τ maxLow dec tr normalize align st data
              = ((headerUpdate st data).1.add_audio_to_buffer wav 2,
                  [OutEvent.errorEvent "transcription_failed" (some m)]))
        ∧ (∀ t, tr ((headerUpdate st data).1.add_audio_to_buffer wav 2).get_cumulative_audio
              = TrOutcome.ok t → t.trim = "" →
            handle_audio_chunk τ maxLow dec tr normalize align st data
              = ((headerUpdate st data).1.add_audio_to_buffer wav 2,
                  [OutEvent.errorEvent "No speech detected" none]))
        ∧ (∀ t, tr ((headerUpdate st data).1.add_audio_to_buffer wav 2).get_cumulative_audio
              = TrOutcome.ok t → t.trim ≠ "" →
            ((normalize t).splitOn " ").filter (fun w => w ≠ "") = [] →
            handle_audio_chunk τ maxLow dec tr normalize align st data
              = ((headerUpdate st data).1.add_audio_to_buffer wav 2,
                  [OutEvent.errorEvent "No valid words detected" none]))) := by
  obtain ⟨hp1, hp2, hp3, hp4, hp5, hp6⟩ := headerUpdate_preserves st data
  constructor
  · intro e hdec
    refine ⟨?_, hp1, hp2, hp3, hp4, hp5, hp6⟩
    simp only [handle_audio_chunk]
    rw [hdec]
  · intro wav hdec
    refine ⟨hp1, hp2, hp3, hp4, ?_, ?_, ?_, ?_⟩
    · intro m htr
      simp only [handle_audio_chunk]
      rw [hdec]
      dsimp only
      rw [htr]
    · intro m htr
      simp only [handle_audio_chunk]
      rw [hdec]
      dsimp only
      rw [htr]
    · intro t htr hempty
      simp only [handle_audio_chunk]
      rw [hdec]
      dsimp only
      rw [htr]
      dsimp only
      rw [if_pos hempty]
    · intro t htr hempty hwords
      simp only [handle_audio_chunk]
      rw [hdec]
      dsimp only
      rw [htr]
      dsimp only
      rw [if_neg hempty, if_pos hwords]

/-- Witness for the amended C1: with a decoder that always fails, the
handler on a fresh session and chunk `[5, 6]` returns the header-updated
state and one audio-conversion error event. -/
theorem failing_chunk_localized_witness :
    handle_audio_chunk (2/5) 3 decFailX trRuntimeErr normId alignEmpty {} [5, 6]
      = ((headerUpdate {} [5, 6]).1,
          [OutEvent.errorEvent ("Audio conversion failed: " ++ "x") none])
    ∧ (headerUpdate {} [5, 6]).1.audio_buffer_wav = ({} : SessionState).audio_buffer_wav :=
  ⟨((failing_chunk_localized (2/5) 3 decFailX trRuntimeErr normId alignEmpty {} [5, 6]).1 "x" rfl).1,
   ((failing_chunk_localized (2/5) 3 decFailX trRuntimeErr normId alignEmpty {} [5, 6]).1 "x" rfl).2.2.2.2.2.1⟩
